import Mathlib

/-!
Verification of the analytics pipeline of the e-commerce dashboard
(`app.py`): a shallow embedding of the data model and of the metric,
category, return-rate and RFM-segmentation computations, together with
theorems settling the specification claims about them.

Conventions of the embedding:
* an order table is a `List Order`; `order_date` is a day number (`ℤ`),
  monetary amounts are `ℚ`;
* pandas aggregations over an empty selection follow pandas semantics:
  `sum` of an empty selection is `0`, `mean` of an empty selection is
  undefined and is modelled as `Option.none`;
* `pd.qcut(..., labels, duplicates := "drop")` is modelled by `qcut`
  below, including the label-count check that raises
  `ValueError: Bin labels must be one fewer than the number of bin edges`
  when duplicate quantile edges were dropped;
* `round(n)` on a float column is modelled by round-half-to-even on `ℚ`
  (`roundHalfEven`), which is the rounding mode of numpy.
-/

namespace App

/-- One row of `ecommerce_orders_revenue.csv` after loading:
`order_id, customer_id, order_date, order_value, discount_applied,
product_category, order_status` (dates as day numbers). -/
structure Order where
  order_id : ℕ
  customer_id : ℕ
  order_date : ℤ
  order_value : ℚ
  discount_applied : ℚ
  product_category : String
  order_status : String
deriving DecidableEq, Repr

/-- numpy/pandas rounding of a real-valued cell to the nearest integer:
round half to even. -/
def roundHalfEven (y : ℚ) : ℤ :=
  let n := ⌊y⌋
  let f := y - (n : ℚ)
  if f < 1/2 then n
  else if 1/2 < f then n + 1
  else if n % 2 = 0 then n else n + 1

/-- `Series.round(1)`: round to one decimal place. -/
def round1 (x : ℚ) : ℚ := (roundHalfEven (x * 10) : ℚ) / 10

/-- `DataFrame.round(2)`: round to two decimal places. -/
def round2 (x : ℚ) : ℚ := (roundHalfEven (x * 100) : ℚ) / 100

/-- pandas `Series.mean()`: undefined (NaN) on an empty selection. -/
def meanOpt (l : List ℚ) : Option ℚ :=
  if l.isEmpty then none else some (l.sum / (l.length : ℚ))

/-! ### Discount impact analysis (Revenue Analysis page) -/

/-- `df[df["discount_applied"] == 0]["order_value"].sum()`. -/
def no_discount_revenue (df : List Order) : ℚ :=
  ((df.filter fun o => decide (o.discount_applied = 0)).map
    (·.order_value)).sum

/-- `df[df["discount_applied"] > 0]["order_value"].sum()`; pandas returns
`0.0` when the selection is empty. -/
def with_discount_revenue (df : List Order) : ℚ :=
  ((df.filter fun o => decide (0 < o.discount_applied)).map
    (·.order_value)).sum

/-- `df[df["discount_applied"] == 0]["order_value"].mean()`. -/
def no_discount_avg (df : List Order) : Option ℚ :=
  meanOpt ((df.filter fun o => decide (o.discount_applied = 0)).map
    (·.order_value))

/-- `df[df["discount_applied"] > 0]["order_value"].mean()`; NaN
(`none`) when no order carries a discount. -/
def with_discount_avg (df : List Order) : Option ℚ :=
  meanOpt ((df.filter fun o => decide (0 < o.discount_applied)).map
    (·.order_value))

/-- `percentage_diff = (no_discount_avg - with_discount_avg) /
no_discount_avg * 100`; undefined (`none`) as soon as either mean is
undefined or the divisor is zero. -/
def percentage_diff (df : List Order) : Option ℚ :=
  match no_discount_avg df, with_discount_avg df with
  | some a, some b => if a = 0 then none else some ((a - b) / a * 100)
  | _, _ => none

/-! ### RFM segment assignment (`segment_customer` in the source) -/

/-- The `segment_customer` rule chain from the source, verbatim:
nested `if/elif` on the three scores, first match wins. -/
def segment_customer (r f m : ℕ) : String :=
  if 4 ≤ r ∧ 4 ≤ f ∧ 4 ≤ m then "Champions"
  else if 3 ≤ r ∧ 4 ≤ f ∧ 4 ≤ m then "Loyal Customers"
  else if 4 ≤ r ∧ 3 ≤ f ∧ 4 ≤ m then "Potential Loyalists"
  else if 3 ≤ f ∧ 3 ≤ m ∧ r ≤ 2 then "At Risk"
  else if 4 ≤ r ∧ (f ≤ 2 ∨ m ≤ 2) then "Need Attention"
  else if 3 ≤ r ∧ (3 ≤ f ∨ 3 ≤ m) then "Promising"
  else if r ≤ 2 ∧ f ≤ 2 then "Lost"
  else "Other"

/-- An ordered segmentation rule: a predicate over (r, f, m) and the
label it assigns. -/
def SegmentRule : Type := (ℕ → ℕ → ℕ → Bool) × String

/-- The ordered rule list of the spec (section 4.5, step 5), in the order the spec gives. -/
def specSegmentRules : List SegmentRule :=
  [ (fun r f m => 4 ≤ r && 4 ≤ f && 4 ≤ m, "Champions"),
    (fun r f m => 3 ≤ r && 4 ≤ f && 4 ≤ m, "Loyal Customers"),
    (fun r f m => 4 ≤ r && 3 ≤ f && 4 ≤ m, "Potential Loyalists"),
    (fun r f m => 3 ≤ f && 3 ≤ m && r ≤ 2, "At Risk"),
    (fun r f m => 4 ≤ r && (f ≤ 2 || m ≤ 2), "Need Attention"),
    (fun r f m => 3 ≤ r && (3 ≤ f || 3 ≤ m), "Promising"),
    (fun r f _ => r ≤ 2 && f ≤ 2, "Lost") ]

/-- Top-down first-match-wins evaluation of an ordered rule list, with
the `otherwise → Other` default of the spec. -/
def firstMatch : List SegmentRule → ℕ → ℕ → ℕ → String
  | [], _, _, _ => "Other"
  | (p, lbl) :: rest, r, f, m =>
      if p r f m then lbl else firstMatch rest r f m

/-- The eight segment labels of the spec. -/
def segmentLabels : List String :=
  ["Champions", "Loyal Customers", "Potential Loyalists", "At Risk",
   "Need Attention", "Promising", "Lost", "Other"]

/-! ### RFM table construction (Customer Segmentation page) -/

/-- Maximum of a list of day numbers (used for `Series.max()` on
non-empty selections). -/
def listMax : List ℤ → ℤ
  | [] => 0
  | [x] => x
  | x :: y :: xs => max x (listMax (y :: xs))

/-- The distinct customers of the order table, in first-appearance
order (`df.groupby("customer_id")` group keys). -/
def customers (df : List Order) : List ℕ :=
  (df.map (·.customer_id)).dedup

/-- `df["order_date"].max()`. -/
def maxOrderDate (df : List Order) : ℤ :=
  listMax (df.map (·.order_date))

/-- The most recent order date of a customer,
`x.max()` over the group of that customer. -/
def customerMaxDate (df : List Order) (c : ℕ) : ℤ :=
  listMax ((df.filter fun o => decide (o.customer_id = c)).map
    (·.order_date))

/-- `Recency = (reference_date - x.max()).days` with
`reference_date = df["order_date"].max() + Timedelta(days := 1)`. -/
def recency (df : List Order) (c : ℕ) : ℤ :=
  (maxOrderDate df + 1) - customerMaxDate df c

/-- `Frequency`: count of the orders of the customer. -/
def frequency (df : List Order) (c : ℕ) : ℕ :=
  (df.filter fun o => decide (o.customer_id = c)).length

/-- `Monetary`: sum of the order values of the customer. -/
def monetary (df : List Order) (c : ℕ) : ℚ :=
  ((df.filter fun o => decide (o.customer_id = c)).map
    (·.order_value)).sum

/-- pandas linear-interpolation quantile of a series: on the
ascending-sorted values `s`, the quantile at probability `p` is
`s[i] + (h - i) * (s[i+1] - s[i])` with `h = p * (len - 1)`,
`i = floor h`. -/
def quantileLinear (s : List ℚ) (p : ℚ) : ℚ :=
  let h := p * ((s.length : ℚ) - 1)
  let i := (⌊h⌋).toNat
  let lo := s.getD i 0
  let hi := s.getD (i + 1) lo
  lo + (h - (i : ℚ)) * (hi - lo)

/-- The raw 6 quantile edges of `pd.qcut(xs, q := 5)`:
quantiles of `xs` at probabilities 0, 0.2, 0.4, 0.6, 0.8, 1. -/
def qcutRawEdges (xs : List ℚ) : List ℚ :=
  ([0, 1/5, 2/5, 3/5, 4/5, 1] : List ℚ).map
    (quantileLinear (xs.insertionSort (· ≤ ·)))

/-- Dropping duplicate bin edges (`duplicates := "drop"`): the edges are
nondecreasing, so `np.unique` is adjacent deduplication. -/
def dedupAdj : List ℚ → List ℚ
  | [] => []
  | [x] => [x]
  | x :: y :: xs =>
      if x = y then dedupAdj (y :: xs) else x :: dedupAdj (y :: xs)

/-- The bin of value `v` among strictly increasing edges: right-closed
intervals with the lowest value included in bin 0
(`searchsorted` + `include_lowest` in pandas), i.e. the number of
interior edges strictly below `v`. -/
def binIndex (edges : List ℚ) (v : ℚ) : ℕ :=
  ((edges.drop 1).dropLast).countP fun e => decide (e < v)

/-- `pd.qcut(xs, q := 5, labels, duplicates := "drop")`: compute the
quantile edges, drop duplicates, and — exactly as pandas does — raise
`ValueError` when the supplied label list no longer matches the number
of surviving bins; otherwise return the label of each value. -/
def qcut (xs : List ℚ) (labels : List ℕ) : Except String (List ℕ) :=
  let edges := dedupAdj (qcutRawEdges xs)
  if labels.length = edges.length - 1 then
    .ok (xs.map fun v => labels.getD (binIndex edges v) 0)
  else
    .error "Bin labels must be one fewer than the number of bin edges"

/-- `Series.rank(method := "first")`: ascending rank with ties broken
by position. -/
def rankFirst (xs : List ℚ) : List ℚ :=
  xs.enum.map fun p =>
    ((xs.enum.countP fun q =>
        decide (q.2 < p.2 ∨ (q.2 = p.2 ∧ q.1 < p.1))) + 1 : ℚ)

/-- One row of the derived RFM table. -/
structure RFMRow where
  customer_id : ℕ
  recency : ℤ
  frequency : ℕ
  monetary : ℚ
  r_score : ℕ
  f_score : ℕ
  m_score : ℕ
  segment : String
deriving DecidableEq, Repr

/-- Zip the per-customer metrics with the three score columns into RFM
rows, applying `segment_customer` per row. -/
def buildRows (df : List Order) :
    List ℕ → List ℕ → List ℕ → List ℕ → List RFMRow
  | c :: cs, r :: rs, f :: fs, m :: ms =>
      { customer_id := c
        recency := recency df c
        frequency := frequency df c
        monetary := monetary df c
        r_score := r
        f_score := f
        m_score := m
        segment := segment_customer r f m } :: buildRows df cs rs fs ms
  | _, _, _, _ => []

/-- The whole RFM pipeline of the Customer Segmentation page: group by
customer, score the three metrics with `pd.qcut` (recency on the raw
day counts with inverted labels `[5,4,3,2,1]`; frequency and monetary
on `rank(method := "first")` with labels `[1,2,3,4,5]`), and attach the
segment label.  Propagates the `ValueError` that `pd.qcut` raises when
degenerate bins make the label count mismatch. -/
def rfmScored (df : List Order) : Except String (List RFMRow) :=
  match qcut ((customers df).map fun c => ((recency df c : ℤ) : ℚ))
      [5, 4, 3, 2, 1] with
  | .error e => .error e
  | .ok rScores =>
    match qcut (rankFirst ((customers df).map
        fun c => ((frequency df c : ℕ) : ℚ))) [1, 2, 3, 4, 5] with
    | .error e => .error e
    | .ok fScores =>
      match qcut (rankFirst ((customers df).map
          fun c => monetary df c)) [1, 2, 3, 4, 5] with
      | .error e => .error e
      | .ok mScores =>
          .ok (buildRows df (customers df) rScores fScores mScores)

/-! ### Category analysis and Pareto cutoff (Product & Category page) -/

/-- The distinct product categories, in first-appearance order
(`df.groupby("product_category")` group keys). -/
def cats (df : List Order) : List String :=
  (df.map (·.product_category)).dedup

/-- `Order_count` of a category: `agg({"order_id": "count"})`. -/
def Order_count (df : List Order) (c : String) : ℕ :=
  (df.filter fun o => o.product_category == c).length

/-- `Total_Revenue` of a category:
`agg({"order_value": "sum"}).round(2)`. -/
def Total_Revenue (df : List Order) (c : String) : ℚ :=
  round2 (((df.filter fun o => o.product_category == c).map
    (·.order_value)).sum)

/-- The `Total_Revenue` column of `category_analysis` (one entry per
category, in group-key order). -/
def revenueTable (df : List Order) : List ℚ :=
  (cats df).map (Total_Revenue df)

/-- `category_analysis["Total_Revenue"].sum()`. -/
def grandTotalRevenue (df : List Order) : ℚ :=
  (revenueTable df).sum

/-- `Revenue[%]` of a category:
`(Total_Revenue / Total_Revenue.sum() * 100).round(1)`. -/
def RevenuePct (df : List Order) (c : String) : ℚ :=
  round1 (Total_Revenue df c / grandTotalRevenue df * 100)

/-- The `Total_Revenue` column after
`sort_values(by := "Total_Revenue", ascending := False)`. -/
def sortedRevenues (df : List Order) : List ℚ :=
  (revenueTable df).insertionSort (· ≥ ·)

/-- `Series.cumsum()`: running sums. -/
def cumsum : List ℚ → List ℚ
  | [] => []
  | x :: xs => x :: (cumsum xs).map (fun y => x + y)

/-- `cumsum_revenue_pct = cumsum_revenue / Total_Revenue.sum() * 100`
over the revenue-sorted category table. -/
def cumsumRevenuePct (df : List Order) : List ℚ :=
  (cumsum (sortedRevenues df)).map fun s => s / grandTotalRevenue df * 100

/-- `num_categories_80 = (cumsum_revenue_pct <= 80).sum()`. -/
def num_categories_80 (df : List Order) : ℕ :=
  (cumsumRevenuePct df).countP fun p => decide (p ≤ 80)

/-! ### Return/refund metrics (Product & Category page) -/

/-- `Total_Orders` of a category (`agg({"order_id": "count"})`,
renamed). -/
def Total_Orders (df : List Order) (c : String) : ℕ :=
  (df.filter fun o => o.product_category == c).length

/-- `Returns_Refunds` of a category:
`((x == "cancelled") | (x == "returned")).sum()` over the group. -/
def Returns_Refunds (df : List Order) (c : String) : ℕ :=
  (df.filter fun o => o.product_category == c).countP fun o =>
    o.order_status == "cancelled" || o.order_status == "returned"

/-- `Return_Rate[%] = (Returns_Refunds / Total_Orders * 100).round(1)`. -/
def Return_Rate (df : List Order) (c : String) : ℚ :=
  round1 ((Returns_Refunds df c : ℚ) / (Total_Orders df c : ℚ) * 100)

/-- `total_returns = ((order_status == "cancelled") |
(order_status == "refunded")).sum()` — note `refunded`, not
`returned`. -/
def total_returns (df : List Order) : ℕ :=
  df.countP fun o =>
    o.order_status == "cancelled" || o.order_status == "refunded"

/-- `overall_return_rate = total_returns / total_orders * 100`. -/
def overall_return_rate (df : List Order) : ℚ :=
  (total_returns df : ℚ) / (df.length : ℚ) * 100

/-- `total_lost_revenue`: sum of `order_value` over the
cancelled-or-refunded orders. -/
def total_lost_revenue (df : List Order) : ℚ :=
  ((df.filter fun o =>
      o.order_status == "cancelled" || o.order_status == "refunded").map
    (·.order_value)).sum

/-- The status pair of the per-category return rate, as the spec
words it. -/
def perCategoryReturnStatuses : List String := ["cancelled", "returned"]

/-- The status pair of the dataset-wide return metrics, as the spec
words it. -/
def overallReturnStatuses : List String := ["cancelled", "refunded"]

/-- Spec-side count for a category: orders of the category with status
in `{cancelled, returned}`. -/
def specCategoryReturnCount (df : List Order) (c : String) : ℕ :=
  (df.filter fun o => o.product_category == c).countP fun o =>
    decide (o.order_status ∈ perCategoryReturnStatuses)

/-- Spec-side dataset-wide count: orders with status in
`{cancelled, refunded}`. -/
def specOverallReturnCount (df : List Order) : ℕ :=
  df.countP fun o => decide (o.order_status ∈ overallReturnStatuses)

/-- Spec-side lost revenue: sum of `order_value` over orders with
status in `{cancelled, refunded}`. -/
def specLostRevenue (df : List Order) : ℚ :=
  ((df.filter fun o =>
      decide (o.order_status ∈ overallReturnStatuses)).map
    (·.order_value)).sum

/-! ### Recommendations-page recomputation of the return table -/

/-- A data frame as the presentation layer sees it: named columns of
numbers. -/
def Frame : Type := List (String × List ℚ)

/-- Column lookup; `none` models the `KeyError` a missing column name
raises. -/
def getCol (fr : Frame) (name : String) : Option (List ℚ) :=
  (fr.find? fun p => p.1 == name).map (·.2)

/-- The Recommendations-page aggregation (source lines 800–803): same
`groupby().agg()` as the Product & Category page but WITHOUT the
`rename`, so its columns keep the input names `order_id` and
`order_status`. -/
def recsReturnAgg (df : List Order) : Frame :=
  [ ("order_id", (cats df).map fun c => ((Order_count df c : ℕ) : ℚ)),
    ("order_status", (cats df).map fun c =>
      ((Returns_Refunds df c : ℕ) : ℚ)) ]

/-- `idxmax` over a labelled series: the label of the first maximal
value. -/
def idxmax (labels : List String) (vals : List ℚ) : Option String :=
  match labels.zip vals with
  | [] => none
  | p :: ps =>
      some (ps.foldl (fun best q => if best.2 < q.2 then q else best) p).1

/-- The Recommendations-page expression
`return_analysis["Returns_Refunds"] / return_analysis["Total_Orders"]
* 100` — both lookups are against the unrenamed frame. -/
def recsReturnRateCol (df : List Order) : Option (List ℚ) :=
  (getCol (recsReturnAgg df) "Returns_Refunds").bind fun rr =>
    (getCol (recsReturnAgg df) "Total_Orders").map fun tot =>
      rr.zipWith (fun a b => a / b * 100) tot

/-- `high_return_cat = return_analysis["Return_Rate[%]"].idxmax()` on
the Recommendations page. -/
def recsHighReturnCat (df : List Order) : Option String :=
  (recsReturnRateCol df).bind fun rates => idxmax (cats df) rates

/-! ### Revenue volatility (Revenue Analysis page) -/

/-- `df["order_value"].mean()` over the full table. -/
def meanOrderValue (df : List Order) : ℚ :=
  ((df.map (·.order_value)).sum) / (df.length : ℚ)

/-- Sample variance (`ddof = 1`), the square of pandas
`Series.std()`. -/
def sampleVariance (df : List Order) : ℚ :=
  ((df.map fun o => (o.order_value - meanOrderValue df) ^ 2).sum) /
    ((df.length : ℚ) - 1)

/-- `std_val = df["order_value"].std()`. -/
noncomputable def stdOrderValue (df : List Order) : ℝ :=
  Real.sqrt ((sampleVariance df : ℚ) : ℝ)

/-- `cov = (std_val / mean_val) * 100`. -/
noncomputable def cov (df : List Order) : ℝ :=
  stdOrderValue df / ((meanOrderValue df : ℚ) : ℝ) * 100

/-- `Best Case Day = mean_val + (cov * mean_val)`. -/
noncomputable def bestCaseDay (df : List Order) : ℝ :=
  ((meanOrderValue df : ℚ) : ℝ) + cov df * ((meanOrderValue df : ℚ) : ℝ)

/-- `Worst Case Day = mean_val - (cov * mean_val)`. -/
noncomputable def worstCaseDay (df : List Order) : ℝ :=
  ((meanOrderValue df : ℚ) : ℝ) - cov df * ((meanOrderValue df : ℚ) : ℝ)

/-- The `if cov > 50` high-volatility warning condition. -/
def highVolatility (df : List Order) : Prop := cov df > 50

/-! ### Concrete example tables used by witnesses and counterexamples -/

/-- Build an order row. -/
def mkOrder (oid cid : ℕ) (d : ℤ) (v disc : ℚ) (cat st : String) :
    Order :=
  ⟨oid, cid, d, v, disc, cat, st⟩

/-- Two orders, both without discount. -/
def exNoDiscount : List Order :=
  [ mkOrder 1 1 0 100 0 "X" "completed",
    mkOrder 2 1 0 50 0 "X" "returned" ]

/-- Two customers whose last orders fall on the same day: the two
recency values are equal, so the recency quintile edges collapse. -/
def exEqualRecency : List Order :=
  [ mkOrder 1 1 0 10 0 "A" "completed",
    mkOrder 2 2 0 20 0 "A" "completed" ]

/-- Five customers with distinct order dates and values: all three
quintile scorings succeed with five non-degenerate bins. -/
def exFive : List Order :=
  [ mkOrder 1 1 0 10 0 "A" "completed",
    mkOrder 2 2 10 20 0 "A" "completed",
    mkOrder 3 3 20 30 0 "B" "completed",
    mkOrder 4 4 30 40 0 "B" "completed",
    mkOrder 5 5 40 50 0 "C" "completed" ]

/-- The RFM table the pipeline derives from `exFive`. -/
def exFiveRows : List RFMRow :=
  [ ⟨1, 41, 1, 10, 1, 1, 1, "Lost"⟩,
    ⟨2, 31, 1, 20, 2, 2, 2, "Lost"⟩,
    ⟨3, 21, 1, 30, 3, 3, 3, "Promising"⟩,
    ⟨4, 11, 1, 40, 4, 4, 4, "Champions"⟩,
    ⟨5, 1, 1, 50, 5, 5, 5, "Champions"⟩ ]

/-- Three categories with revenues 70, 20 and 10: the 80-percent set is
the first category alone (cumulative shares 70, 90, 100). -/
def exPareto : List Order :=
  [ mkOrder 1 1 0 70 0 "A" "completed",
    mkOrder 2 2 0 20 0 "B" "completed",
    mkOrder 3 3 0 10 0 "C" "completed" ]

/-!
## Theorems

First the claim theorems that need no list infrastructure, then the
helper lemmas and the remaining claims.
-/

/-- C1: for scores r, f, m each in {1..5}, `segment_customer` computes
exactly the top-down first-match evaluation of the ordered rule list of
the spec, and its result is always one of the eight segment labels. -/
theorem segment_customer_eq_firstMatch (r f m : ℕ)
    (hr1 : 1 ≤ r) (hr5 : r ≤ 5) (hf1 : 1 ≤ f) (hf5 : f ≤ 5)
    (hm1 : 1 ≤ m) (hm5 : m ≤ 5) :
    segment_customer r f m = firstMatch specSegmentRules r f m ∧
      segment_customer r f m ∈ segmentLabels := by
  interval_cases r <;> interval_cases f <;> interval_cases m <;> decide

/-- Witness for C1 at scores (3, 4, 4): the rule list assigns
`Loyal Customers` and the label is one of the eight. -/
theorem segment_customer_eq_firstMatch_witness :
    segment_customer 3 4 4 = firstMatch specSegmentRules 3 4 4 ∧
      segment_customer 3 4 4 ∈ segmentLabels :=
  segment_customer_eq_firstMatch 3 4 4 (by decide) (by decide)
    (by decide) (by decide) (by decide) (by decide)

/-- C2: on a population whose recency values admit fewer than 5
non-degenerate quintile bins (here: two customers with equal recency),
the RFM scoring does NOT merge bins and keep going — `pd.qcut` with an
explicit 5-element label list and `duplicates := "drop"` raises
`ValueError`, so the whole RFM computation aborts and no customer
receives any score. -/
theorem rfmScored_equalRecency_raises :
    rfmScored exEqualRecency =
      .error "Bin labels must be one fewer than the number of bin edges" := by
  have harg :
      (customers exEqualRecency).map
        (fun c => ((recency exEqualRecency c : ℤ) : ℚ)) = [1, 1] := by
    norm_num [customers, recency, maxOrderDate, customerMaxDate, listMax,
      exEqualRecency, mkOrder, List.dedup]
  have hedges : dedupAdj (qcutRawEdges [1, 1]) = [1] := by
    norm_num [qcutRawEdges, quantileLinear, dedupAdj, List.insertionSort,
      List.orderedInsert]
  have hq :
      qcut ((customers exEqualRecency).map
        (fun c => ((recency exEqualRecency c : ℤ) : ℚ))) [5, 4, 3, 2, 1] =
        .error "Bin labels must be one fewer than the number of bin edges" := by
    rw [harg]
    simp [qcut, hedges]
  simp only [rfmScored, hq]

/-- C4 counterexample: with every `discount_applied` equal to 0, the
with-discount total revenue is the number 0 (pandas sums an empty
selection to 0.0), not an undefined/empty marker as the claim states. -/
theorem with_discount_revenue_zero_counterexample :
    (∀ o ∈ exNoDiscount, o.discount_applied = 0) ∧
      with_discount_revenue exNoDiscount = 0 := by
  constructor
  · decide
  · rfl

/-- C4 amended: if all orders have `discount_applied = 0`, the
with-discount MEAN and the percentage difference are undefined (NaN,
modelled as `none`), but the with-discount TOTAL revenue is 0, not
undefined. -/
theorem all_zero_discount_aggregates (df : List Order)
    (h : ∀ o ∈ df, o.discount_applied = 0) :
    with_discount_revenue df = 0 ∧ with_discount_avg df = none ∧
      percentage_diff df = none := by
  have hfil : (df.filter fun o => decide (0 < o.discount_applied)) = [] := by
    rw [List.filter_eq_nil_iff]
    intro o ho
    simp [h o ho]
  have havg : with_discount_avg df = none := by
    simp [with_discount_avg, meanOpt, hfil]
  refine ⟨?_, havg, ?_⟩
  · simp [with_discount_revenue, hfil]
  · unfold percentage_diff
    rw [havg]
    cases no_discount_avg df <;> rfl

/-- Witness for C4 (amended) at the concrete all-zero-discount table. -/
theorem all_zero_discount_aggregates_witness :
    with_discount_revenue exNoDiscount = 0 ∧
      with_discount_avg exNoDiscount = none ∧
      percentage_diff exNoDiscount = none :=
  all_zero_discount_aggregates exNoDiscount (by decide)

/-- C9: the Recommendations-page recomputation of the return table
never renames the aggregated columns, so the lookups of
`Returns_Refunds` and `Total_Orders` fail (missing key) on every input
and the highest-return category can never be produced. -/
theorem recommendations_return_columns_missing (df : List Order) :
    getCol (recsReturnAgg df) "Returns_Refunds" = none ∧
      getCol (recsReturnAgg df) "Total_Orders" = none ∧
      recsHighReturnCat df = none :=
  ⟨rfl, rfl, rfl⟩

/-! ### List maxima and recency bounds -/

lemma le_listMax {l : List ℤ} {x : ℤ} (hx : x ∈ l) : x ≤ listMax l := by
  induction l with
  | nil => cases hx
  | cons a t ih =>
    cases t with
    | nil =>
      rw [List.mem_singleton.1 hx]
      simp [listMax]
    | cons b t2 =>
      rcases List.mem_cons.1 hx with rfl | hmem
      · simp [listMax]
      · exact le_trans (ih hmem) (by simp [listMax])

lemma listMax_mem {l : List ℤ} (h : l ≠ []) : listMax l ∈ l := by
  induction l with
  | nil => exact absurd rfl h
  | cons a t ih =>
    cases t with
    | nil => simp [listMax]
    | cons b t2 =>
      have hmax : listMax (a :: b :: t2) = max a (listMax (b :: t2)) := by
        simp [listMax]
      rcases le_total a (listMax (b :: t2)) with hle | hle
      · rw [hmax, max_eq_right hle]
        exact List.mem_cons_of_mem _ (ih (by simp))
      · rw [hmax, max_eq_left hle]
        exact List.mem_cons_self _ _

lemma customerMaxDate_le (df : List Order) (c : ℕ)
    (hc : c ∈ customers df) : customerMaxDate df c ≤ maxOrderDate df := by
  obtain ⟨o, ho, hoc⟩ := List.mem_map.1 (List.mem_dedup.1 hc)
  have hfil : o ∈ df.filter fun o => decide (o.customer_id = c) :=
    List.mem_filter.2 ⟨ho, by simp [hoc]⟩
  have hne :
      ((df.filter fun o => decide (o.customer_id = c)).map
        (·.order_date)) ≠ [] := by
    simp only [ne_eq, List.map_eq_nil_iff]
    exact List.ne_nil_of_mem hfil
  obtain ⟨o2, ho2, ho2d⟩ := List.mem_map.1 (listMax_mem hne)
  have ho2df : o2 ∈ df := (List.mem_filter.1 ho2).1
  calc customerMaxDate df c = o2.order_date := ho2d.symm
    _ ≤ maxOrderDate df := le_listMax (List.mem_map.2 ⟨o2, ho2df, rfl⟩)

lemma recency_ge_one (df : List Order) (c : ℕ)
    (hc : c ∈ customers df) : 1 ≤ recency df c := by
  have := customerMaxDate_le df c hc
  unfold recency
  omega

lemma frequency_pos (df : List Order) (c : ℕ)
    (hc : c ∈ customers df) : 1 ≤ frequency df c := by
  obtain ⟨o, ho, hoc⟩ := List.mem_map.1 (List.mem_dedup.1 hc)
  have hfil : o ∈ df.filter fun o => decide (o.customer_id = c) :=
    List.mem_filter.2 ⟨ho, by simp [hoc]⟩
  exact List.length_pos.2 (List.ne_nil_of_mem hfil)

/-- C10: for every customer appearing in the order table, recency is at
least 1 — the reference date is the dataset-wide maximum order date
plus one day and no order is later than that maximum, so the strict
bound holds, strengthening the `recency ≥ 0` of the spec. -/
theorem recency_at_least_one (df : List Order) (c : ℕ)
    (hc : c ∈ customers df) : 1 ≤ recency df c :=
  recency_ge_one df c hc

/-- Witness for C10: customer 1 of the five-customer table has recency
at least 1 (in fact 41). -/
theorem recency_at_least_one_witness : 1 ≤ recency exFive 1 :=
  recency_at_least_one exFive 1 (by decide)

/-! ### qcut and buildRows facts -/

lemma qcut_ok_length {xs : List ℚ} {L ys : List ℕ}
    (h : qcut xs L = .ok ys) : ys.length = xs.length := by
  simp only [qcut] at h
  split at h
  · cases h
    simp
  · cases h

lemma qcut_ok_mem {xs : List ℚ} {L ys : List ℕ} (hL : 0 < L.length)
    (h : qcut xs L = .ok ys) : ∀ y ∈ ys, y ∈ L := by
  simp only [qcut] at h
  split at h
  case isTrue hcond =>
    cases h
    intro y hy
    obtain ⟨v, _, rfl⟩ := List.mem_map.1 hy
    have hidx : binIndex (dedupAdj (qcutRawEdges xs)) v < L.length := by
      have h1 := List.countP_le_length
        (fun e => decide (e < v))
        (l := ((dedupAdj (qcutRawEdges xs)).drop 1).dropLast)
      have h2 : (((dedupAdj (qcutRawEdges xs)).drop 1).dropLast).length =
          (dedupAdj (qcutRawEdges xs)).length - 2 := by
        rw [List.length_dropLast, List.length_drop]
        omega
      unfold binIndex
      omega
    rw [List.getD_eq_getElem L 0 hidx]
    exact List.getElem_mem hidx
  case isFalse => cases h

lemma rankFirst_length (xs : List ℚ) : (rankFirst xs).length = xs.length := by
  simp [rankFirst, List.enum_length]

lemma buildRows_map_customer (df : List Order) :
    ∀ (cs rs fs ms : List ℕ), rs.length = cs.length →
      fs.length = cs.length → ms.length = cs.length →
      (buildRows df cs rs fs ms).map (·.customer_id) = cs := by
  intro cs
  induction cs with
  | nil =>
    intro rs fs ms hr hf hm
    rw [List.length_eq_zero.1 hr, List.length_eq_zero.1 hf,
      List.length_eq_zero.1 hm]
    rfl
  | cons c cs ih =>
    intro rs fs ms hr hf hm
    cases rs with
    | nil => cases hr
    | cons r rs =>
      cases fs with
      | nil => cases hf
      | cons f fs =>
        cases ms with
        | nil => cases hm
        | cons m ms =>
          simp only [buildRows, List.map_cons]
          rw [ih rs fs ms (by simpa using hr) (by simpa using hf)
            (by simpa using hm)]

lemma buildRows_mem (df : List Order) :
    ∀ (cs rs fs ms : List ℕ) (row : RFMRow),
      row ∈ buildRows df cs rs fs ms →
      row.customer_id ∈ cs ∧ row.r_score ∈ rs ∧ row.f_score ∈ fs ∧
        row.m_score ∈ ms ∧ row.recency = recency df row.customer_id ∧
        row.frequency = frequency df row.customer_id := by
  intro cs
  induction cs with
  | nil => intro rs fs ms row hrow; cases hrow
  | cons c cs ih =>
    intro rs fs ms row hrow
    cases rs with
    | nil => cases hrow
    | cons r rs =>
      cases fs with
      | nil => cases hrow
      | cons f fs =>
        cases ms with
        | nil => cases hrow
        | cons m ms =>
          simp only [buildRows, List.mem_cons] at hrow
          rcases hrow with rfl | hmem
          · refine ⟨by simp, by simp, by simp, by simp, rfl, rfl⟩
          · obtain ⟨h1, h2, h3, h4, h5, h6⟩ := ih rs fs ms row hmem
            exact ⟨List.mem_cons_of_mem _ h1, List.mem_cons_of_mem _ h2,
              List.mem_cons_of_mem _ h3, List.mem_cons_of_mem _ h4, h5, h6⟩

/-- C5: whenever the RFM pipeline succeeds, the derived table has one
row per distinct customer of the order table (customers with zero
orders cannot appear), and every row satisfies `recency ≥ 0` (indeed
`≥ 1`), `frequency ≥ 1`, and all three scores lie in {1..5}. -/
theorem rfm_row_invariants (df : List Order) (rows : List RFMRow)
    (h : rfmScored df = .ok rows) :
    rows.map (·.customer_id) = customers df ∧
      ∀ row ∈ rows, 0 ≤ row.recency ∧ 1 ≤ row.frequency ∧
        (1 ≤ row.r_score ∧ row.r_score ≤ 5) ∧
        (1 ≤ row.f_score ∧ row.f_score ≤ 5) ∧
        (1 ≤ row.m_score ∧ row.m_score ≤ 5) := by
  unfold rfmScored at h
  cases hR : qcut ((customers df).map fun c => ((recency df c : ℤ) : ℚ))
      [5, 4, 3, 2, 1] with
  | error e => rw [hR] at h; cases h
  | ok rS =>
  rw [hR] at h
  simp only at h
  cases hF : qcut (rankFirst ((customers df).map
      fun c => ((frequency df c : ℕ) : ℚ))) [1, 2, 3, 4, 5] with
  | error e => rw [hF] at h; cases h
  | ok fS =>
  rw [hF] at h
  simp only at h
  cases hM : qcut (rankFirst ((customers df).map
      fun c => monetary df c)) [1, 2, 3, 4, 5] with
  | error e => rw [hM] at h; cases h
  | ok mS =>
  rw [hM] at h
  simp only at h
  have hrows : rows = buildRows df (customers df) rS fS mS :=
    (Except.ok.inj h).symm
  have hlenR : rS.length = (customers df).length := by
    rw [qcut_ok_length hR]; simp
  have hlenF : fS.length = (customers df).length := by
    rw [qcut_ok_length hF, rankFirst_length]; simp
  have hlenM : mS.length = (customers df).length := by
    rw [qcut_ok_length hM, rankFirst_length]; simp
  constructor
  · rw [hrows]
    exact buildRows_map_customer df (customers df) rS fS mS hlenR hlenF hlenM
  · intro row hrow
    rw [hrows] at hrow
    obtain ⟨hcmem, hrmem, hfmem, hmmem, hrec, hfreq⟩ :=
      buildRows_mem df (customers df) rS fS mS row hrow
    have hrL := qcut_ok_mem (by decide) hR _ hrmem
    have hfL := qcut_ok_mem (by decide) hF _ hfmem
    have hmL := qcut_ok_mem (by decide) hM _ hmmem
    refine ⟨?_, ?_, ?_, ?_, ?_⟩
    · rw [hrec]
      have := recency_ge_one df row.customer_id hcmem
      omega
    · rw [hfreq]
      exact frequency_pos df row.customer_id hcmem
    · simp only [List.mem_cons, List.not_mem_nil, or_false] at hrL
      omega
    · simp only [List.mem_cons, List.not_mem_nil, or_false] at hfL
      omega
    · simp only [List.mem_cons, List.not_mem_nil, or_false] at hmL
      omega

set_option maxHeartbeats 4000000 in
/-- Witness for C5 at the five-customer table: the pipeline succeeds
with the explicit row list `exFiveRows` and every row satisfies the
invariants. -/
theorem rfm_row_invariants_witness :
    exFiveRows.map (·.customer_id) = customers exFive ∧
      ∀ row ∈ exFiveRows, 0 ≤ row.recency ∧ 1 ≤ row.frequency ∧
        (1 ≤ row.r_score ∧ row.r_score ≤ 5) ∧
        (1 ≤ row.f_score ∧ row.f_score ≤ 5) ∧
        (1 ≤ row.m_score ∧ row.m_score ≤ 5) :=
  rfm_row_invariants exFive exFiveRows (by
    have hc : customers exFive = [1, 2, 3, 4, 5] := by rfl
    have hrecs :
        (customers exFive).map (fun c => ((recency exFive c : ℤ) : ℚ)) =
          [41, 31, 21, 11, 1] := by
      rw [hc]
      norm_num [recency, maxOrderDate, customerMaxDate, listMax,
        exFive, mkOrder]
    have hfreqs :
        rankFirst ((customers exFive).map
          (fun c => ((frequency exFive c : ℕ) : ℚ))) = [1, 2, 3, 4, 5] := by
      rw [hc]
      norm_num [frequency, exFive, mkOrder, rankFirst, List.enum,
        List.enumFrom]
    have hmons :
        rankFirst ((customers exFive).map (fun c => monetary exFive c)) =
          [1, 2, 3, 4, 5] := by
      rw [hc]
      norm_num [monetary, exFive, mkOrder, rankFirst, List.enum,
        List.enumFrom]
    have hedgesR : dedupAdj (qcutRawEdges [41, 31, 21, 11, 1]) =
        [1, 9, 17, 25, 33, 41] := by
      norm_num [qcutRawEdges, quantileLinear, List.insertionSort,
        List.orderedInsert]
      simp
      norm_num [dedupAdj]
    have hedgesF : dedupAdj (qcutRawEdges [1, 2, 3, 4, 5]) =
        [1, 9/5, 13/5, 17/5, 21/5, 5] := by
      norm_num [qcutRawEdges, quantileLinear, List.insertionSort,
        List.orderedInsert]
      simp
      norm_num [dedupAdj]
    have hR : qcut ((customers exFive).map
        (fun c => ((recency exFive c : ℤ) : ℚ))) [5, 4, 3, 2, 1] =
          .ok [1, 2, 3, 4, 5] := by
      rw [hrecs]
      norm_num [qcut, hedgesR, binIndex]
    have hF : qcut (rankFirst ((customers exFive).map
        (fun c => ((frequency exFive c : ℕ) : ℚ)))) [1, 2, 3, 4, 5] =
          .ok [1, 2, 3, 4, 5] := by
      rw [hfreqs]
      norm_num [qcut, hedgesF, binIndex]
    have hM : qcut (rankFirst ((customers exFive).map
        (fun c => monetary exFive c))) [1, 2, 3, 4, 5] =
          .ok [1, 2, 3, 4, 5] := by
      rw [hmons]
      norm_num [qcut, hedgesF, binIndex]
    simp only [rfmScored, hR, hF, hM]
    show Except.ok (buildRows exFive (customers exFive)
      [1, 2, 3, 4, 5] [1, 2, 3, 4, 5] [1, 2, 3, 4, 5]) = Except.ok exFiveRows
    rw [hc]
    norm_num [buildRows, recency, frequency, monetary, maxOrderDate,
      customerMaxDate, listMax, exFive, exFiveRows, mkOrder,
      segment_customer])

/-! ### Return-status pairs -/

lemma perCategory_status_decide (o : Order) :
    (o.order_status == "cancelled" || o.order_status == "returned") =
      decide (o.order_status ∈ perCategoryReturnStatuses) := by
  by_cases h1 : o.order_status = "cancelled" <;>
    by_cases h2 : o.order_status = "returned" <;>
      simp [perCategoryReturnStatuses, h1, h2]

lemma overall_status_decide (o : Order) :
    (o.order_status == "cancelled" || o.order_status == "refunded") =
      decide (o.order_status ∈ overallReturnStatuses) := by
  by_cases h1 : o.order_status = "cancelled" <;>
    by_cases h2 : o.order_status = "refunded" <;>
      simp [overallReturnStatuses, h1, h2]

/-- C6: the per-category return counts use the status pair
{cancelled, returned} while the dataset-wide return metrics use
{cancelled, refunded}; the two rates and the lost revenue are exactly
the corresponding count/total×100 and status-filtered sum, and the two
status pairs are distinct. -/
theorem return_status_pairs (df : List Order) (c : String) :
    Returns_Refunds df c = specCategoryReturnCount df c ∧
      Return_Rate df c =
        round1 ((specCategoryReturnCount df c : ℚ) /
          (Total_Orders df c : ℚ) * 100) ∧
      total_returns df = specOverallReturnCount df ∧
      overall_return_rate df =
        (specOverallReturnCount df : ℚ) / (df.length : ℚ) * 100 ∧
      total_lost_revenue df = specLostRevenue df ∧
      perCategoryReturnStatuses ≠ overallReturnStatuses := by
  have h1 : Returns_Refunds df c = specCategoryReturnCount df c :=
    List.countP_congr fun o _ => by
      simp [perCategory_status_decide o]
  have h3 : total_returns df = specOverallReturnCount df :=
    List.countP_congr fun o _ => by
      simp [overall_status_decide o]
  have h5 : total_lost_revenue df = specLostRevenue df := by
    unfold total_lost_revenue specLostRevenue
    rw [List.filter_congr fun o _ => overall_status_decide o]
  refine ⟨h1, ?_, h3, ?_, h5, by decide⟩
  · unfold Return_Rate
    rw [h1]
  · unfold overall_return_rate
    rw [h3]

/-! ### Revenue volatility formulas -/

/-- C8: the coefficient of variation is `(std / mean) * 100`, the
best/worst-case estimates are `mean ± cov * mean` (equivalently
`mean ± 100 * std` once the percentage-valued cov is multiplied back by
the mean), and the high-volatility warning fires exactly when
`cov > 50`. -/
theorem cov_best_worst_formulas (df : List Order)
    (_h0 : df ≠ []) (hm : meanOrderValue df ≠ 0) :
    cov df = stdOrderValue df / ((meanOrderValue df : ℚ) : ℝ) * 100 ∧
      bestCaseDay df = ((meanOrderValue df : ℚ) : ℝ) +
        (stdOrderValue df / ((meanOrderValue df : ℚ) : ℝ) * 100) *
          ((meanOrderValue df : ℚ) : ℝ) ∧
      worstCaseDay df = ((meanOrderValue df : ℚ) : ℝ) -
        (stdOrderValue df / ((meanOrderValue df : ℚ) : ℝ) * 100) *
          ((meanOrderValue df : ℚ) : ℝ) ∧
      bestCaseDay df = ((meanOrderValue df : ℚ) : ℝ) +
        100 * stdOrderValue df ∧
      worstCaseDay df = ((meanOrderValue df : ℚ) : ℝ) -
        100 * stdOrderValue df ∧
      (highVolatility df ↔
        stdOrderValue df / ((meanOrderValue df : ℚ) : ℝ) * 100 > 50) := by
  have hmR : ((meanOrderValue df : ℚ) : ℝ) ≠ 0 := by
    exact_mod_cast hm
  refine ⟨rfl, rfl, rfl, ?_, ?_, Iff.rfl⟩
  · unfold bestCaseDay cov
    field_simp
    ring
  · unfold worstCaseDay cov
    field_simp
    ring

/-- Witness for C8 at a two-order table with mean 75. -/
theorem cov_best_worst_formulas_witness :
    cov exNoDiscount =
      stdOrderValue exNoDiscount /
        ((meanOrderValue exNoDiscount : ℚ) : ℝ) * 100 ∧
      bestCaseDay exNoDiscount = ((meanOrderValue exNoDiscount : ℚ) : ℝ) +
        (stdOrderValue exNoDiscount /
          ((meanOrderValue exNoDiscount : ℚ) : ℝ) * 100) *
          ((meanOrderValue exNoDiscount : ℚ) : ℝ) ∧
      worstCaseDay exNoDiscount = ((meanOrderValue exNoDiscount : ℚ) : ℝ) -
        (stdOrderValue exNoDiscount /
          ((meanOrderValue exNoDiscount : ℚ) : ℝ) * 100) *
          ((meanOrderValue exNoDiscount : ℚ) : ℝ) ∧
      bestCaseDay exNoDiscount = ((meanOrderValue exNoDiscount : ℚ) : ℝ) +
        100 * stdOrderValue exNoDiscount ∧
      worstCaseDay exNoDiscount = ((meanOrderValue exNoDiscount : ℚ) : ℝ) -
        100 * stdOrderValue exNoDiscount ∧
      (highVolatility exNoDiscount ↔
        stdOrderValue exNoDiscount /
          ((meanOrderValue exNoDiscount : ℚ) : ℝ) * 100 > 50) :=
  cov_best_worst_formulas exNoDiscount (by simp [exNoDiscount])
    (by norm_num [meanOrderValue, exNoDiscount, mkOrder])

/-! ### Rounding bounds -/

lemma abs_roundHalfEven_sub (y : ℚ) :
    |(roundHalfEven y : ℚ) - y| ≤ 1/2 := by
  have h1 : ((⌊y⌋ : ℤ) : ℚ) ≤ y := Int.floor_le y
  have h2 : y < ((⌊y⌋ : ℤ) : ℚ) + 1 := Int.lt_floor_add_one y
  simp only [roundHalfEven]
  split_ifs with hf1 hf2 hn <;> rw [abs_le] <;> constructor <;>
    push_cast <;> linarith

lemma roundHalfEven_nonneg {y : ℚ} (hy : 0 ≤ y) : 0 ≤ roundHalfEven y := by
  have h := Int.floor_nonneg.mpr hy
  simp only [roundHalfEven]
  split_ifs <;> omega

lemma abs_round1_sub (x : ℚ) : |round1 x - x| ≤ 1/20 := by
  have h := abs_roundHalfEven_sub (x * 10)
  unfold round1
  rw [show (roundHalfEven (x * 10) : ℚ) / 10 - x =
    ((roundHalfEven (x * 10) : ℚ) - x * 10) / 10 by ring]
  rw [abs_div, abs_of_pos (show (0:ℚ) < 10 by norm_num)]
  linarith

lemma round2_nonneg {x : ℚ} (hx : 0 ≤ x) : 0 ≤ round2 x := by
  have h : (0:ℤ) ≤ roundHalfEven (x * 100) :=
    roundHalfEven_nonneg (by linarith)
  unfold round2
  have : (0:ℚ) ≤ (roundHalfEven (x * 100) : ℚ) := by exact_mod_cast h
  positivity

lemma sum_map_round1_close (l : List ℚ) :
    |(l.map round1).sum - l.sum| ≤ (l.length : ℚ) / 20 := by
  induction l with
  | nil => simp
  | cons x xs ih =>
    simp only [List.map_cons, List.sum_cons, List.length_cons]
    have h1 := abs_round1_sub x
    have habs : |round1 x + (xs.map round1).sum - (x + xs.sum)| ≤
        |round1 x - x| + |(xs.map round1).sum - xs.sum| := by
      rw [show round1 x + (xs.map round1).sum - (x + xs.sum) =
        (round1 x - x) + ((xs.map round1).sum - xs.sum) by ring]
      exact abs_add _ _
    push_cast
    linarith

/-- C7: the per-category revenue shares sum to 100 up to the rounding
error of one decimal place per category (at most 1/20 each), and the
per-category order counts sum exactly to the number of orders. -/
theorem revenue_pct_sum_and_count_sum (df : List Order)
    (hT : 0 < grandTotalRevenue df) :
    |((cats df).map (RevenuePct df)).sum - 100| ≤
        ((cats df).length : ℚ) / 20 ∧
      ((cats df).map (Order_count df)).sum = df.length := by
  constructor
  · have hSne : grandTotalRevenue df ≠ 0 := ne_of_gt hT
    have hmap : (cats df).map (RevenuePct df) =
        ((cats df).map
          (fun c => Total_Revenue df c / grandTotalRevenue df * 100)).map
          round1 := by
      rw [List.map_map]
      rfl
    have hsum : ((cats df).map
        (fun c => Total_Revenue df c / grandTotalRevenue df * 100)).sum =
          100 := by
      rw [List.map_congr_left
        (fun c _ => show Total_Revenue df c / grandTotalRevenue df * 100 =
          Total_Revenue df c * (100 / grandTotalRevenue df) by ring)]
      rw [List.sum_map_mul_right]
      have h2 : ((cats df).map fun c => Total_Revenue df c).sum =
          grandTotalRevenue df := rfl
      rw [h2]
      field_simp
    have happrox := sum_map_round1_close
      ((cats df).map (fun c => Total_Revenue df c / grandTotalRevenue df * 100))
    rw [hsum] at happrox
    rw [hmap]
    simpa using happrox
  · have h1 : ∀ c, Order_count df c =
        (df.map (·.product_category)).count c := by
      intro c
      rw [List.count_eq_countP, List.countP_map]
      unfold Order_count
      rw [← List.countP_eq_length_filter]
      rfl
    calc ((cats df).map (Order_count df)).sum
        = ((df.map (·.product_category)).dedup.map
            (fun c => (df.map (·.product_category)).count c)).sum := by
          unfold cats
          exact congrArg _ (List.map_congr_left fun c _ => h1 c)
      _ = (df.map (·.product_category)).length :=
          List.sum_map_count_dedup_eq_length _
      _ = df.length := List.length_map _ _

/-- Witness for C7 at the three-category table with revenues
70, 20, 10: the shares are 70, 20, 10 and the counts are 1, 1, 1. -/
theorem revenue_pct_sum_and_count_sum_witness :
    |((cats exPareto).map (RevenuePct exPareto)).sum - 100| ≤
        ((cats exPareto).length : ℚ) / 20 ∧
      ((cats exPareto).map (Order_count exPareto)).sum = exPareto.length :=
  revenue_pct_sum_and_count_sum exPareto (by
    have hgt : grandTotalRevenue exPareto = 100 := by
      have hcats : cats exPareto = ["A", "B", "C"] := rfl
      have lA : (exPareto.filter fun o => o.product_category == "A").map
          (·.order_value) = [70] := rfl
      have lB : (exPareto.filter fun o => o.product_category == "B").map
          (·.order_value) = [20] := rfl
      have lC : (exPareto.filter fun o => o.product_category == "C").map
          (·.order_value) = [10] := rfl
      unfold grandTotalRevenue revenueTable
      rw [hcats]
      simp only [List.map_cons, List.map_nil]
      unfold Total_Revenue
      rw [lA, lB, lC]
      norm_num [round2, roundHalfEven]
    rw [hgt]
    norm_num)

/-! ### Cumulative sums and the Pareto cutoff -/

lemma cumsum_nonneg : ∀ {l : List ℚ}, (∀ x ∈ l, 0 ≤ x) →
    ∀ y ∈ cumsum l, 0 ≤ y := by
  intro l
  induction l with
  | nil => intro _ y hy; cases hy
  | cons x xs ih =>
    intro h y hy
    simp only [cumsum, List.mem_cons] at hy
    rcases hy with rfl | hy
    · exact h y (by simp)
    · obtain ⟨z, hz, rfl⟩ := List.mem_map.1 hy
      have hx := h x (by simp)
      have hz0 := ih (fun a ha => h a (by simp [ha])) z hz
      linarith

lemma cumsum_sorted : ∀ {l : List ℚ}, (∀ x ∈ l, 0 ≤ x) →
    (cumsum l).Sorted (· ≤ ·) := by
  intro l
  induction l with
  | nil => intro _; simp [cumsum]
  | cons x xs ih =>
    intro h
    simp only [cumsum]
    rw [List.sorted_cons]
    constructor
    · intro b hb
      obtain ⟨z, hz, rfl⟩ := List.mem_map.1 hb
      have := cumsum_nonneg (fun a ha => h a (by simp [ha])) z hz
      linarith
    · exact List.Pairwise.map _ (fun a b hab => by linarith)
        (ih (fun a ha => h a (by simp [ha])))

lemma countP_le_cons_zero {c x : ℚ} {xs : List ℚ} (hx : ¬ x ≤ c)
    (hall : ∀ b ∈ xs, x ≤ b) :
    (x :: xs).countP (fun y => decide (y ≤ c)) = 0 := by
  rw [List.countP_eq_zero]
  intro a ha
  simp only [decide_eq_true_eq]
  rcases List.mem_cons.1 ha with rfl | hmem
  · exact hx
  · intro hac
    exact hx (le_trans (hall a hmem) hac)

lemma sorted_countP_le {c : ℚ} : ∀ {l : List ℚ}, l.Sorted (· ≤ ·) →
    ∀ i, i < l.countP (fun x => decide (x ≤ c)) → l.getD i 0 ≤ c := by
  intro l
  induction l with
  | nil => intro _ i hi; simp at hi
  | cons x xs ih =>
    intro hs i hi
    rw [List.sorted_cons] at hs
    by_cases hx : x ≤ c
    · cases i with
      | zero => simpa [List.getD_cons_zero] using hx
      | succ j =>
        rw [List.getD_cons_succ]
        apply ih hs.2
        rw [List.countP_cons] at hi
        simp [hx] at hi
        omega
    · exfalso
      have hz := countP_le_cons_zero hx hs.1
      omega

lemma sorted_countP_gt {c : ℚ} : ∀ {l : List ℚ}, l.Sorted (· ≤ ·) →
    l.countP (fun x => decide (x ≤ c)) < l.length →
    c < l.getD (l.countP (fun x => decide (x ≤ c))) 0 := by
  intro l
  induction l with
  | nil => intro _ h; simp at h
  | cons x xs ih =>
    intro hs hlen
    rw [List.sorted_cons] at hs
    by_cases hx : x ≤ c
    · have hcnt : (x :: xs).countP (fun y => decide (y ≤ c)) =
          xs.countP (fun y => decide (y ≤ c)) + 1 := by
        rw [List.countP_cons]
        simp [hx]
      rw [hcnt, List.getD_cons_succ]
      apply ih hs.2
      rw [hcnt, List.length_cons] at hlen
      omega
    · have hz := countP_le_cons_zero hx hs.1
      rw [hz, List.getD_cons_zero]
      exact not_le.1 hx

/-- C3: over a category table with non-negative revenues sorted
descending and positive grand total, `num_categories_80` counts exactly
the cumulative shares that are at most 80 percent; by monotonicity of
the cumulative sum those are exactly the positions strictly before the
first share exceeding 80, the share at the returned boundary is at most
80, and the next category (when one exists) pushes the share above
80. -/
theorem pareto_cutoff_boundary (df : List Order)
    (hval : ∀ o ∈ df, 0 ≤ o.order_value)
    (hT : 0 < grandTotalRevenue df) :
    num_categories_80 df ≤ (cumsumRevenuePct df).length ∧
      num_categories_80 df =
        (cumsumRevenuePct df).countP (fun p => decide (p ≤ 80)) ∧
      (∀ i, i < num_categories_80 df →
        (cumsumRevenuePct df).getD i 0 ≤ 80) ∧
      (num_categories_80 df < (cumsumRevenuePct df).length →
        80 < (cumsumRevenuePct df).getD (num_categories_80 df) 0) := by
  have hrev : ∀ x ∈ sortedRevenues df, 0 ≤ x := by
    intro x hx
    have hx2 : x ∈ revenueTable df := (List.mem_insertionSort _).1 hx
    obtain ⟨cc, _, rfl⟩ := List.mem_map.1 hx2
    unfold Total_Revenue
    apply round2_nonneg
    apply List.sum_nonneg
    intro v hv
    obtain ⟨o, ho, rfl⟩ := List.mem_map.1 hv
    exact hval o (List.mem_filter.1 ho).1
  have hpcts : (cumsumRevenuePct df).Sorted (· ≤ ·) := by
    unfold cumsumRevenuePct
    refine List.Pairwise.map _ (fun a b hab => ?_) (cumsum_sorted hrev)
    have h1 : a / grandTotalRevenue df ≤ b / grandTotalRevenue df :=
      (div_le_div_iff_of_pos_right hT).mpr hab
    have h100 : (0:ℚ) ≤ 100 := by norm_num
    exact mul_le_mul_of_nonneg_right h1 h100
  refine ⟨List.countP_le_length _, rfl, ?_, ?_⟩
  · exact fun i hi => sorted_countP_le hpcts i hi
  · exact fun hlt => sorted_countP_gt hpcts hlt

/-- Witness for C3 at the three-category table: the cumulative shares
are 70, 90, 100, so the 80-percent set is the single top category. -/
theorem pareto_cutoff_boundary_witness :
    num_categories_80 exPareto ≤ (cumsumRevenuePct exPareto).length ∧
      num_categories_80 exPareto =
        (cumsumRevenuePct exPareto).countP (fun p => decide (p ≤ 80)) ∧
      (∀ i, i < num_categories_80 exPareto →
        (cumsumRevenuePct exPareto).getD i 0 ≤ 80) ∧
      (num_categories_80 exPareto < (cumsumRevenuePct exPareto).length →
        80 < (cumsumRevenuePct exPareto).getD
          (num_categories_80 exPareto) 0) :=
  pareto_cutoff_boundary exPareto
    (by norm_num [exPareto, mkOrder])
    (by
      have hgt : grandTotalRevenue exPareto = 100 := by
        have hcats : cats exPareto = ["A", "B", "C"] := rfl
        have lA : (exPareto.filter fun o => o.product_category == "A").map
            (·.order_value) = [70] := rfl
        have lB : (exPareto.filter fun o => o.product_category == "B").map
            (·.order_value) = [20] := rfl
        have lC : (exPareto.filter fun o => o.product_category == "C").map
            (·.order_value) = [10] := rfl
        unfold grandTotalRevenue revenueTable
        rw [hcats]
        simp only [List.map_cons, List.map_nil]
        unfold Total_Revenue
        rw [lA, lB, lC]
        norm_num [round2, roundHalfEven]
      rw [hgt]
      norm_num)

end App
